import Mathlib

/-!
Zen Writer — shallow embedding and verification.

A shallow embedding of the Zen Writer editor (the Angular component
`AppComponent` in `src/app.component.ts` and the `GeminiService`), with
theorems settling the frozen claims about its debounced analysis
pipeline, transform flow, grammar correction, tone colour lookup and
panel resize.

Browser / platform primitives (the DOMParser-based `stripHtml`, the text
selection, `JSON.parse`, the remote model call) are not repository code;
they enter the model as parameters or explicit outcome values.
JavaScript string primitives used by the component (`trim`,
`toLowerCase`, first-occurrence `String.prototype.replace` with a string
pattern) are implemented here directly so their behaviour is part of the
model.
-/

namespace ZenWriter

/-! JavaScript string primitives -/

/-- Whitespace in the sense of JavaScript `String.prototype.trim`
(WhiteSpace and LineTerminator code points; the common ones). -/
def isJsWhitespace (c : Char) : Bool :=
  c == ' ' || c == '\t' || c == '\n' || c == '\r' ||
  c == Char.ofNat 11 || c == Char.ofNat 12 ||
  c == Char.ofNat 160 || c == Char.ofNat 65279 ||
  c == Char.ofNat 8232 || c == Char.ofNat 8233

/-- JavaScript `s.trim()`: strip whitespace from both ends. -/
def jsTrim (s : String) : String :=
  String.mk (((s.data.dropWhile isJsWhitespace).reverse.dropWhile isJsWhitespace).reverse)

/-- Core of JavaScript `String.prototype.replace` with a *string* pattern:
replace the first occurrence of `pat` (the occurrence starting at the
lowest index) by `rep`; leave the list unchanged when `pat` does not
occur.  (The dollar-substitution patterns of the JavaScript spec are not
modelled; replacement text is inserted literally.) -/
def replaceFirstAux (pat rep : List Char) : List Char → List Char
  | [] => if pat.isPrefixOf ([] : List Char) then rep ++ ([] : List Char).drop pat.length else []
  | c :: rest =>
    if pat.isPrefixOf (c :: rest) then rep ++ (c :: rest).drop pat.length
    else c :: replaceFirstAux pat rep rest

/-- JavaScript `s.replace(pat, rep)` with a string pattern:
first-occurrence substring replacement. -/
def jsReplaceFirst (s pat rep : String) : String :=
  String.mk (replaceFirstAux pat.data rep.data s.data)

/-- JavaScript `s.toLowerCase()` on the basic latin range (the only
characters the component compares after lower-casing). -/
def jsToLowerCase (s : String) : String :=
  String.mk (s.data.map Char.toLower)

/-! Data model (`src/models/analysis.model.ts`) -/

/-- Interface `Tone`: a single-word tone name with an intensity score. -/
structure Tone where
  name : String
  score : Int
deriving DecidableEq, Repr

/-- Interface `GrammarMistake`. -/
structure GrammarMistake where
  mistake : String
  correction : String
  explanation : String
deriving DecidableEq, Repr

/-- Interface `AnalysisResult`. -/
structure AnalysisResult where
  tone : Tone
  suggestions : List String
  grammarMistakes : List GrammarMistake
deriving DecidableEq, Repr

/-! GeminiService (`src/services/gemini.service.ts`) -/

/-- Service operation `GeminiService.transformText`: builds the prompt
sent to the model, translating the `switch (action.toLowerCase())`
statement; the network call returns the model text verbatim, so the
routing is entirely in the prompt construction. -/
def transformText (text action : String) : String :=
  if jsToLowerCase action = "shorten" then
    "Make the following text more concise: \"" ++ text ++ "\""
  else if jsToLowerCase action = "formalize" then
    "Rewrite the following text in a more formal and professional tone: \"" ++ text ++ "\""
  else
    action ++ " the following text: \"" ++ text ++ "\""

/-- A JSON value, the codomain of the platform JSON parsing routine. -/
inductive Json where
  | null
  | bool (b : Bool)
  | num (q : ℚ)
  | str (s : String)
  | arr (elems : List Json)
  | obj (fields : List (String × Json))

/-- The two failure modes of `GeminiService.analyzeText` as seen by its
caller: the remote call threw (network, auth, rate limit), or
`JSON.parse` threw on malformed text. -/
inductive AnalyzeError where
  | apiError
  | parseError
deriving DecidableEq, Repr

/-- Service operation `GeminiService.analyzeText`, after the outcome of
the remote call is fixed (`response : Except Unit String`; `.ok txt` is
`response.text`).  Modelled from the spec: `JSON.parse` is a platform
builtin, abstracted as the `jsonParse` parameter (`none` = the text is
malformed JSON and `JSON.parse` throws).  The source does
`JSON.parse(response.text.trim()) as AnalysisResult`: the `as` cast
performs no validation, so whatever JSON value is parsed is returned
unchecked — a valid JSON object missing top-level fields is returned
without error. -/
def analyzeText (jsonParse : String → Option Json) (response : Except Unit String) :
    Except AnalyzeError Json :=
  match response with
  | .error _ => .error .apiError
  | .ok txt =>
    match jsonParse (jsTrim txt) with
    | none => .error .parseError
    | some j => .ok j

/-! AppComponent state (`src/app.component.ts`).

The component's signals, plus an explicit model of the browser timer
queue: `pendingTimers` is the list of timers that have been created by
`setTimeout` and neither fired nor been cancelled by `clearTimeout`;
`debounceTimeout` is the component's `this.debounceTimeout` field (the
id last stored there); `nextTimerId` numbers fresh timers.
`lastSettled` is history instrumentation only (which stripped text the
most recently settled analysis call ran on, and whether it succeeded);
no transition reads it. -/

/-- A scheduled `setTimeout(() => runAnalysis(text), 1000)` timer. -/
structure Timer where
  id : Nat
  text : String
  fireAt : Nat
deriving DecidableEq, Repr

/-- The component's signal state plus the timer-queue model. -/
structure AppState where
  editorContent : String
  analysis : Option AnalysisResult
  isLoading : Bool
  error : Option String
  showMoreActions : Bool
  editorWidthPercent : ℚ
  pendingTimers : List Timer
  debounceTimeout : Option Nat
  nextTimerId : Nat
  lastSettled : Option (String × Bool)
deriving DecidableEq

/-- The component's initial signal values (`editorContent` is the welcome
markup; timer queue empty). -/
def initState : AppState where
  editorContent := "<div>Welcome to Zen Writer! Start typing here and see the magic happen. For example, try writing: \"i think ur idea is bad and we shud not proceed with it.\"</div>"
  analysis := none
  isLoading := false
  error := none
  showMoreActions := false
  editorWidthPercent := 66
  pendingTimers := []
  debounceTimeout := none
  nextTimerId := 0
  lastSettled := none

/-- The error string set by `runAnalysis` on failure. -/
def analysisErrorMessage : String :=
  "Failed to analyze text. The API key may be invalid or the service is unavailable."

/-- An ASCII apostrophe (U+0027), used in the transform error string. -/
def apostrophe : String := String.singleton (Char.ofNat 39)

/-- The error string set by `transformContent` on failure:
`Failed to (apostrophe)(action)(apostrophe) text. Please try again.` -/
def transformErrorMessage (action : String) : String :=
  "Failed to " ++ apostrophe ++ action ++ apostrophe ++ " text. Please try again."

/-- Outcome of the awaited `geminiService.analyzeText` call, as seen by
`runAnalysis`: a parsed result, or a thrown error (of either kind). -/
inductive ApiOutcome where
  | ok (result : AnalysisResult)
  | err
deriving DecidableEq, Repr

/-- First half of `AppComponent.runAnalysis` (before the `await`):
`isLoading.set(true); error.set(null)`. -/
def runAnalysisStart (s : AppState) : AppState :=
  { s with isLoading := true, error := none }

/-- Second half of `AppComponent.runAnalysis` (after the `await`): on
success the result replaces `analysis`; on failure the generic error
message is set and `analysis` is cleared; `finally` resets `isLoading`.
`lastSettled` records the (ghost) history. -/
def runAnalysisSettle (text : String) (outcome : ApiOutcome) (s : AppState) : AppState :=
  match outcome with
  | .ok r =>
    { s with analysis := some r, isLoading := false, lastSettled := some (text, true) }
  | .err =>
    { s with error := some analysisErrorMessage, analysis := none, isLoading := false,
             lastSettled := some (text, false) }

/-- Component method `AppComponent.runAnalysis(text)` with the call
outcome made explicit.  `if (!text) return;` — the empty string is
falsy, so empty text returns immediately without touching any state. -/
def runAnalysis (text : String) (outcome : ApiOutcome) (s : AppState) : AppState :=
  if text = "" then s
  else runAnalysisSettle text outcome (runAnalysisStart s)

/-- The debounce `effect` in the constructor, run at time `now` (ms)
after `editorContent` changed.  `strip` is the DOMParser-based
`stripHtml`, a platform function taken as a parameter.
`if (this.debounceTimeout) clearTimeout(this.debounceTimeout)` cancels
the timer whose id is stored in the field, then either a fresh timer is
scheduled 1000ms out (text longer than 10 once trimmed) or the analysis
is cleared. -/
def effectDebounce (strip : String → String) (now : Nat) (s : AppState) : AppState :=
  let textContent := strip s.editorContent
  let cleared :=
    { s with pendingTimers :=
        s.pendingTimers.filter (fun t => decide (s.debounceTimeout ≠ some t.id)) }
  if 10 < (jsTrim textContent).length then
    { cleared with
        pendingTimers :=
          cleared.pendingTimers ++ [⟨cleared.nextTimerId, textContent, now + 1000⟩],
        debounceTimeout := some cleared.nextTimerId,
        nextTimerId := cleared.nextTimerId + 1 }
  else
    { cleared with analysis := none }

/-- Events of the pipeline: an edit (the `editorContent` signal is set and
the debounce effect runs at time `now`), or a scheduled timer firing
(which runs `runAnalysis` on the captured text with the given call
outcome).  A `fire` for an id that is not pending, or before its due
time, does nothing. -/
inductive Event where
  | edit (content : String) (now : Nat)
  | fire (id : Nat) (now : Nat) (outcome : ApiOutcome)

/-- One pipeline transition. -/
def step (strip : String → String) (s : AppState) : Event → AppState
  | .edit c now => effectDebounce strip now { s with editorContent := c }
  | .fire id now outcome =>
    match s.pendingTimers.find? (fun t => decide (t.id = id)) with
    | some t =>
      if t.fireAt ≤ now then
        runAnalysis t.text outcome
          { s with pendingTimers := s.pendingTimers.filter (fun u => decide (u.id ≠ id)) }
      else s
    | none => s

/-- A whole event trace, left to right. -/
def runTrace (strip : String → String) (s : AppState) (es : List Event) : AppState :=
  es.foldl (step strip) s

/-- Outcome of the awaited `geminiService.transformText` call. -/
inductive TransformOutcome where
  | ok (text : String)
  | err
deriving DecidableEq, Repr

/-- Component method `AppComponent.transformContent(action)` with the
browser selection state (`hasSelection`, `selText`) and the call outcome
made explicit.  The dropdown closes first in every path; empty target
text returns early.  On success with a selection the new text is
inserted into the DOM by `document.execCommand`, which does not itself
write the `editorContent` signal; without a selection the signal is
replaced by the wrapped result (newlines turned into `<br>`).  On
failure only the error message (naming the action) is set; `finally`
resets `isLoading`. -/
def transformContent (strip : String → String) (action : String)
    (hasSelection : Bool) (selText : String) (outcome : TransformOutcome)
    (s : AppState) : AppState :=
  let s0 := { s with showMoreActions := false }
  let textToTransform := if hasSelection then selText else strip s0.editorContent
  if textToTransform = "" then s0
  else
    let s1 := { s0 with isLoading := true, error := none }
    match outcome with
    | .ok newText =>
      if hasSelection then
        { s1 with isLoading := false }
      else
        { s1 with editorContent := "<div>" ++ newText.replace "\n" "<br>" ++ "</div>",
                  isLoading := false }
    | .err =>
      { s1 with error := some (transformErrorMessage action), isLoading := false }

/-- Component method `AppComponent.applySuggestion`. -/
def applySuggestion (suggestion : String) (s : AppState) : AppState :=
  { s with editorContent := "<div>" ++ suggestion.replace "\n" "<br>" ++ "</div>" }

/-- Component method `AppComponent.applyGrammarCorrection`: JavaScript
string `replace` with a string pattern replaces only the first
occurrence. -/
def applyGrammarCorrection (mistake correction : String) (s : AppState) : AppState :=
  { s with editorContent := jsReplaceFirst s.editorContent mistake correction }

/-- The neutral default colour class. -/
def defaultToneColor : String := "bg-gray-400 dark:bg-gray-600"

/-- The fixed `toneColorMap` object literal, as an association list
(own-property lookup; the JavaScript prototype chain is not modelled). -/
def toneColorMap : List (String × String) :=
  [("formal", "bg-green-500"), ("professional", "bg-green-500"),
   ("confident", "bg-blue-500"), ("joyful", "bg-yellow-400"),
   ("encouraging", "bg-teal-400"), ("friendly", "bg-sky-400"),
   ("angry", "bg-red-600"), ("critical", "bg-red-500"),
   ("sad", "bg-indigo-500"), ("defensive", "bg-orange-500"),
   ("frustrated", "bg-rose-600"),
   ("casual", "bg-sky-500"), ("informal", "bg-sky-500"),
   ("neutral", "bg-slate-500"), ("objective", "bg-slate-500"),
   ("sarcastic", "bg-purple-500")]

/-- Derived value `AppComponent.toneColorClass`:
`analysis()?.tone.name.toLowerCase()` is undefined when no analysis is
present; `if (!toneName)` also catches the empty tone name (falsy); then
`toneColorMap[toneName] || default`. -/
def toneColorClass (analysis : Option AnalysisResult) : String :=
  match analysis with
  | none => defaultToneColor
  | some a =>
    let toneName := jsToLowerCase a.tone.name
    if toneName = "" then defaultToneColor
    else
      match toneColorMap.lookup toneName with
      | some c => c
      | none => defaultToneColor

/-- Component method `AppComponent.doResize`: the new width percentage is
`clientX / innerWidth * 100`; it is stored only when strictly inside the
interval (25, 75), otherwise the prior width is kept. -/
def doResize (clientX innerWidth : ℚ) (s : AppState) : AppState :=
  let newWidth := clientX / innerWidth * 100
  if 25 < newWidth ∧ newWidth < 75 then
    { s with editorWidthPercent := newWidth }
  else s

/-- Inductive invariant of the debounce pipeline: every pending timer is
the one referenced by `this.debounceTimeout` and carries text whose
trimmed length exceeds 10; at most one timer is pending; and the
analysis is non-null only if the most recently settled analysis call ran
on text of trimmed length > 10 and succeeded. -/
def Inv (s : AppState) : Prop :=
  (∀ t ∈ s.pendingTimers, s.debounceTimeout = some t.id ∧ 10 < (jsTrim t.text).length) ∧
  s.pendingTimers.length ≤ 1 ∧
  (s.analysis.isSome = true → ∃ u, s.lastSettled = some (u, true) ∧ 10 < (jsTrim u).length)

/-- A concrete analysis result, used to instantiate theorems. -/
def sampleResult : AnalysisResult where
  tone := { name := "Angry", score := 80 }
  suggestions := ["s1", "s2", "s3"]
  grammarMistakes := []

/-! Helper lemmas -/

theorem jsTrim_length_le (s : String) : (jsTrim s).length ≤ s.length := by
  show (((s.data.dropWhile isJsWhitespace).reverse.dropWhile
      isJsWhitespace).reverse).length ≤ s.data.length
  rw [List.length_reverse]
  calc ((s.data.dropWhile isJsWhitespace).reverse.dropWhile isJsWhitespace).length
      ≤ (s.data.dropWhile isJsWhitespace).reverse.length :=
        (List.dropWhile_sublist _).length_le
    _ = (s.data.dropWhile isJsWhitespace).length := List.length_reverse _
    _ ≤ s.data.length := (List.dropWhile_sublist _).length_le

theorem isPrefixOfIff {l₁ l₂ : List Char} : l₁.isPrefixOf l₂ = true ↔ l₁ <+: l₂ := by
  simp

theorem occursOfStart {α : Type} {l₁ l₂ : List α} (h : l₁ <+: l₂) : l₁ <:+: l₂ := by
  obtain ⟨t, ht⟩ := h
  exact ⟨[], t, by simpa using ht⟩

theorem occursOfTail {α : Type} {a : α} {l₁ l₂ : List α} (h : l₁ <:+: l₂) :
    l₁ <:+: a :: l₂ := by
  obtain ⟨u, v, huv⟩ := h
  exact ⟨a :: u, v, by simp [← huv]⟩

theorem occursSplitCons {α : Type} {a : α} {l₁ l₂ : List α} (h : l₁ <:+: a :: l₂)
    (hp : ¬ l₁ <+: a :: l₂) : l₁ <:+: l₂ := by
  obtain ⟨u, v, huv⟩ := h
  cases u with
  | nil =>
    exact absurd ⟨v, by simpa using huv⟩ hp
  | cons b u' =>
    have h2 : b = a ∧ u' ++ (l₁ ++ v) = l₂ := by
      simpa using huv
    refine ⟨u', v, ?_⟩
    rw [List.append_assoc]
    exact h2.2

theorem replaceFirstAux_no_occurrence (pat rep : List Char) (l : List Char)
    (h : ¬ pat <:+: l) : replaceFirstAux pat rep l = l := by
  induction l with
  | nil =>
    have hpat : ¬ pat.isPrefixOf ([] : List Char) := by
      intro hp
      exact h (occursOfStart (isPrefixOfIff.mp hp))
    simp [replaceFirstAux, hpat]
  | cons c rest ih =>
    have hpre : ¬ pat.isPrefixOf (c :: rest) := by
      intro hp
      exact h (occursOfStart (isPrefixOfIff.mp hp))
    have hrest : ¬ pat <:+: rest := fun hr => h (occursOfTail hr)
    simp [replaceFirstAux, hpre, ih hrest]

theorem replaceFirstAux_first_occurrence (pat rep : List Char) (l : List Char)
    (h : pat <:+: l) :
    ∃ p q, l = p ++ pat ++ q ∧ replaceFirstAux pat rep l = p ++ rep ++ q ∧
      ∀ p' q', l = p' ++ pat ++ q' → p.length ≤ p'.length := by
  induction l with
  | nil =>
    rcases h with ⟨u, v, huv⟩
    have hu : u = [] := by
      cases u with
      | nil => rfl
      | cons a t => simp at huv
    have hv : v = [] := by
      subst hu
      cases v with
      | nil => rfl
      | cons a t =>
        have := congrArg List.length huv
        simp at this
    have hpat : pat = [] := by
      subst hu hv
      simpa using huv.symm
    subst hpat
    refine ⟨[], [], by simp, ?_, fun p' q' _ => by simp⟩
    simp [replaceFirstAux]
  | cons c rest ih =>
    by_cases hpre : pat <+: (c :: rest)
    · rcases hpre with ⟨t, ht⟩
      refine ⟨[], t, by simp [← ht], ?_, fun p' q' _ => by simp⟩
      have hb : pat.isPrefixOf (c :: rest) = true :=
        isPrefixOfIff.mpr ⟨t, ht⟩
      have hd : (c :: rest).drop pat.length = t := by
        rw [← ht]; exact List.drop_left _ _
      simp [replaceFirstAux, hb, hd]
    · have hrest : pat <:+: rest := occursSplitCons h hpre
      rcases ih hrest with ⟨p, q, hsplit, hres, hmin⟩
      have hb : ¬ pat.isPrefixOf (c :: rest) := by
        intro hp
        exact hpre (isPrefixOfIff.mp hp)
      refine ⟨c :: p, q, by simp [hsplit], ?_, ?_⟩
      · simp [replaceFirstAux, hb, hres]
      · intro p' q' hsplit'
        cases p' with
        | nil =>
          exfalso
          exact hpre ⟨q', by simpa using hsplit'.symm⟩
        | cons a p'' =>
          have ha : rest = p'' ++ pat ++ q' := by
            have h2 := hsplit'
            simp at h2
            rw [h2.2, List.append_assoc]
          have := hmin p'' q' ha
          simpa using Nat.succ_le_succ this

theorem inv_initState : Inv initState := by
  refine ⟨?_, ?_, ?_⟩ <;> simp [initState]

theorem pending_filter_clear (pt : List Timer) (dt : Option Nat)
    (hT : ∀ t ∈ pt, dt = some t.id) :
    pt.filter (fun t => !decide (dt = some t.id)) = [] := by
  rw [List.filter_eq_nil_iff]
  intro t ht
  simp [hT t ht]

theorem inv_step (strip : String → String) (s : AppState) (hInv : Inv s) (e : Event) :
    Inv (step strip s e) := by
  obtain ⟨hT, hLen, hA⟩ := hInv
  obtain ⟨ec, an, il, er, sm, ew, pt, dt, ni, ls⟩ := s
  dsimp only at hT hLen hA
  cases e with
  | edit c now =>
    have hfil : pt.filter (fun t => !decide (dt = some t.id)) = [] := by
      rw [List.filter_eq_nil_iff]
      intro t ht
      have h := (hT t ht).1
      simp [h]
    by_cases hlong : 10 < (jsTrim (strip c)).length
    · refine ⟨?_, ?_, ?_⟩ <;> simp [step, effectDebounce, hlong, hfil]
      exact hA
    · refine ⟨?_, ?_, ?_⟩ <;> simp [step, effectDebounce, hlong, hfil]
  | fire id now outcome =>
    have hLen2 : (pt.filter (fun u => !decide (u.id = id))).length ≤ 1 :=
      le_trans (List.length_filter_le _ _) hLen
    cases hfind : pt.find? (fun t => decide (t.id = id)) with
    | none =>
      refine ⟨?_, ?_, ?_⟩ <;> simp [step, hfind]
      · exact fun u hu => hT u hu
      · exact hLen
      · exact hA
    | some t =>
      have htmem : t ∈ pt := List.mem_of_find?_eq_some hfind
      by_cases hdue : t.fireAt ≤ now
      · by_cases htext : t.text = ""
        · refine ⟨?_, ?_, ?_⟩ <;> simp [step, hfind, hdue, runAnalysis, htext]
          · exact fun u hu _ => hT u hu
          · exact hLen2
          · exact hA
        · cases outcome with
          | ok r =>
            refine ⟨?_, ?_, ?_⟩ <;>
              simp [step, hfind, hdue, runAnalysis, htext, runAnalysisSettle,
                runAnalysisStart]
            · exact fun u hu _ => hT u hu
            · exact hLen2
            · exact (hT t htmem).2
          | err =>
            refine ⟨?_, ?_, ?_⟩ <;>
              simp [step, hfind, hdue, runAnalysis, htext, runAnalysisSettle,
                runAnalysisStart]
            · exact fun u hu _ => hT u hu
            · exact hLen2
      · refine ⟨?_, ?_, ?_⟩ <;> simp [step, hfind, hdue]
        · exact fun u hu => hT u hu
        · exact hLen
        · exact hA

theorem inv_runTrace (strip : String → String) (s : AppState) (hInv : Inv s)
    (es : List Event) : Inv (runTrace strip s es) := by
  induction es generalizing s with
  | nil => simpa [runTrace] using hInv
  | cons e rest ih =>
    have h1 := inv_step strip s hInv e
    simpa [runTrace] using ih (step strip s e) h1

/-! Claims -/

/-- C1: an edit whose stripped plain text has length ≤ 10 sets the
analysis to null and leaves no analysis call scheduled; equivalently,
along any event trace the analysis is non-null only if the most recently
settled analysis call ran on stripped text of length > 10 and
succeeded. -/
theorem short_text_forces_null_analysis (strip : String → String) (s : AppState)
    (hInv : Inv s) (c : String) (now : Nat) (hshort : (strip c).length ≤ 10)
    (es : List Event) :
    ((step strip s (.edit c now)).analysis = none ∧
     (step strip s (.edit c now)).pendingTimers = []) ∧
    ((runTrace strip s es).analysis.isSome = true →
      ∃ u, (runTrace strip s es).lastSettled = some (u, true) ∧ 10 < u.length) := by
  constructor
  · have hT := hInv.1
    have hlong : ¬ 10 < (jsTrim (strip c)).length := by
      have := jsTrim_length_le (strip c)
      omega
    obtain ⟨ec, an, il, er, sm, ew, pt, dt, ni, ls⟩ := s
    dsimp only at hT
    have hfil := pending_filter_clear pt dt (fun t ht => (hT t ht).1)
    constructor <;> simp [step, effectDebounce, hlong, hfil]
  · intro hsome
    obtain ⟨u, hu, hlen⟩ := (inv_runTrace strip s hInv es).2.2 hsome
    exact ⟨u, hu, lt_of_lt_of_le hlen (jsTrim_length_le u)⟩

theorem short_text_forces_null_analysis_witness :
    (step id initState (.edit "short" 0)).analysis = none :=
  ((short_text_forces_null_analysis id initState inv_initState "short" 0
    (by decide) []).1).1

/-- C2 (counterexample to the claim as stated): the claim promises a
rescheduled call for every stripped text of length > 10, but the code
gates on `textContent.trim().length > 10`.  For the stripped text
consisting of "a" followed by 11 spaces — length 12 > 10, trimmed
length 1 — the edit schedules no analysis call at all and instead
clears the analysis. -/
theorem debounce_single_timer_counterexample :
    10 < ("a           " : String).length ∧
    (step id initState (.edit "a           " 0)).pendingTimers = [] ∧
    (step id initState (.edit "a           " 0)).analysis = none ∧
    (step id initState (.edit "a           " 0)).pendingTimers.map
      (fun t => (t.text, t.fireAt)) ≠ [("a           ", 0 + 1000)] := by
  refine ⟨by decide, rfl, rfl, by decide⟩

/-- C2 (amended): at most one pending analysis timer exists at any time
along any event trace, and an edit whose stripped text remains longer
than 10 after trimming first cancels the previously scheduled timer and
leaves exactly one newly scheduled analysis call, due 1000ms after the
edit; stripped text whose trimmed length is ≤ 10 instead clears the
analysis and schedules nothing (see the counterexample and C1). -/
theorem debounce_single_timer (strip : String → String) (s : AppState)
    (hInv : Inv s) (c : String) (now : Nat)
    (hlong : 10 < (jsTrim (strip c)).length) (es : List Event) :
    (runTrace strip s es).pendingTimers.length ≤ 1 ∧
    (step strip s (.edit c now)).pendingTimers.map (fun t => (t.text, t.fireAt))
      = [(strip c, now + 1000)] := by
  constructor
  · exact (inv_runTrace strip s hInv es).2.1
  · have hT := hInv.1
    obtain ⟨ec, an, il, er, sm, ew, pt, dt, ni, ls⟩ := s
    dsimp only at hT
    have hfil := pending_filter_clear pt dt (fun t ht => (hT t ht).1)
    simp [step, effectDebounce, hlong, hfil]

theorem debounce_single_timer_witness :
    (step id initState (.edit "hello wonderful world" 5)).pendingTimers.map
      (fun t => (t.text, t.fireAt)) = [("hello wonderful world", 5 + 1000)] :=
  (debounce_single_timer id initState inv_initState "hello wonderful world" 5
    (by decide) []).2

/-- C3: an analysis run on non-empty text passes through `isLoading =
true`; on success the returned result replaces the stored analysis; on
failure the generic error message is set and the analysis is cleared to
null; in both outcomes `isLoading` ends false. -/
theorem runAnalysis_outcomes (s : AppState) (text : String) (r : AnalysisResult)
    (h : text ≠ "") :
    (runAnalysisStart s).isLoading = true ∧
    ((runAnalysis text (.ok r) s).analysis = some r ∧
     (runAnalysis text (.ok r) s).isLoading = false) ∧
    ((runAnalysis text .err s).error = some analysisErrorMessage ∧
     (runAnalysis text .err s).analysis = none ∧
     (runAnalysis text .err s).isLoading = false) := by
  refine ⟨rfl, ⟨?_, ?_⟩, ?_, ?_, ?_⟩ <;>
    simp [runAnalysis, h, runAnalysisStart, runAnalysisSettle]

theorem runAnalysis_outcomes_witness :
    (runAnalysis "hello world" (.ok sampleResult) initState).analysis
      = some sampleResult :=
  ((runAnalysis_outcomes initState "hello world" sampleResult (by decide)).2.1).1

/-- C4: a failed transform leaves the editor content and the analysis
unmodified and sets an error message that names the action (with
`isLoading` reset); a successful whole-document transform replaces the
content with the wrapped result (atomicity). -/
theorem transformContent_failure_atomic (strip : String → String) (action : String)
    (hasSelection : Bool) (selText : String) (s : AppState) :
    (transformContent strip action hasSelection selText .err s).editorContent
      = s.editorContent ∧
    (transformContent strip action hasSelection selText .err s).analysis
      = s.analysis ∧
    ((if hasSelection then selText else strip s.editorContent) ≠ "" →
      (transformContent strip action hasSelection selText .err s).error
        = some (transformErrorMessage action) ∧
      (transformContent strip action hasSelection selText .err s).isLoading = false) ∧
    (∃ pre post, transformErrorMessage action = pre ++ action ++ post) ∧
    (∀ newText, strip s.editorContent ≠ "" →
      (transformContent strip action false selText (.ok newText) s).editorContent
        = "<div>" ++ newText.replace "\n" "<br>" ++ "</div>") := by
  refine ⟨?_, ?_, ?_, ?_, ?_⟩
  · by_cases ht : (if hasSelection then selText else strip s.editorContent) = "" <;>
      simp [transformContent, ht]
  · by_cases ht : (if hasSelection then selText else strip s.editorContent) = "" <;>
      simp [transformContent, ht]
  · intro ht
    constructor <;> simp [transformContent, ht]
  · refine ⟨"Failed to " ++ apostrophe, apostrophe ++ " text. Please try again.", ?_⟩
    simp [transformErrorMessage, String.append_assoc]
  · intro newText hne
    simp [transformContent, hne]

theorem transformContent_failure_atomic_witness :
    (transformContent id "shorten" false "x" .err initState).error
      = some (transformErrorMessage "shorten") ∧
    (transformContent id "shorten" false "x" .err initState).isLoading = false :=
  (transformContent_failure_atomic id "shorten" false "x" initState).2.2.1 (by decide)

/-- C5: `applyGrammarCorrection` performs a single first-occurrence
substring replacement of the mistake by the correction in the current
document, and is silently a no-op when the mistake substring is absent;
concretely, correcting "ur" to "your" on "i think ur idea" yields
"i think your idea", and on a document without "ur" it changes
nothing. -/
theorem applyGrammarCorrection_first_occurrence (mistake correction : String)
    (s : AppState) :
    (¬ mistake.data <:+: s.editorContent.data →
      applyGrammarCorrection mistake correction s = s) ∧
    (mistake.data <:+: s.editorContent.data →
      ∃ p q, s.editorContent.data = p ++ mistake.data ++ q ∧
        (applyGrammarCorrection mistake correction s).editorContent.data
          = p ++ correction.data ++ q ∧
        ∀ p' q', s.editorContent.data = p' ++ mistake.data ++ q' →
          p.length ≤ p'.length) ∧
    (applyGrammarCorrection "ur" "your"
      { s with editorContent := "i think ur idea" }).editorContent
      = "i think your idea" ∧
    (applyGrammarCorrection "ur" "your"
      { s with editorContent := "i think that idea" }).editorContent
      = "i think that idea" := by
  refine ⟨?_, ?_, ?_, ?_⟩
  · intro h
    have hfix := replaceFirstAux_no_occurrence mistake.data correction.data
      s.editorContent.data h
    have hid : jsReplaceFirst s.editorContent mistake correction = s.editorContent := by
      unfold jsReplaceFirst
      rw [hfix]
    simp [applyGrammarCorrection, hid]
  · intro h
    obtain ⟨p, q, hsplit, hres, hmin⟩ :=
      replaceFirstAux_first_occurrence mistake.data correction.data
        s.editorContent.data h
    exact ⟨p, q, hsplit, hres, hmin⟩
  · rfl
  · rfl

theorem applyGrammarCorrection_first_occurrence_witness :
    applyGrammarCorrection "zz" "yy" { initState with editorContent := "i think that idea" }
      = { initState with editorContent := "i think that idea" } :=
  (applyGrammarCorrection_first_occurrence "zz" "yy"
    { initState with editorContent := "i think that idea" }).1 (by decide)

/-- C6 (counterexample to the claim as stated): routing is on
`action.toLowerCase()`, so the action string "Shorten" — an "other
action string", being distinct from "shorten" and "formalize" — still
routes to the fixed concise template rather than the generic
"{action} the following text" template. -/
theorem transformText_counterexample :
    transformText "hello" "Shorten"
      = "Make the following text more concise: \"hello\"" ∧
    ¬ transformText "hello" "Shorten"
      = "Shorten the following text: \"hello\"" := by
  constructor
  · rfl
  · decide

/-- C6 (amended): `transformText` routes any action whose lower-casing is
"shorten" or "formalize" to the corresponding fixed template, and any
action whose lower-casing is neither to the generic
"{action} the following text" template with the action prefixed
verbatim (e.g. "Make Funny"). -/
theorem transformText_routing (text action : String) :
    (jsToLowerCase action = "shorten" →
      transformText text action
        = "Make the following text more concise: \"" ++ text ++ "\"") ∧
    (jsToLowerCase action = "formalize" →
      transformText text action
        = "Rewrite the following text in a more formal and professional tone: \""
            ++ text ++ "\"") ∧
    (jsToLowerCase action ≠ "shorten" → jsToLowerCase action ≠ "formalize" →
      transformText text action
        = action ++ " the following text: \"" ++ text ++ "\"") := by
  refine ⟨?_, ?_, ?_⟩
  · intro h
    simp [transformText, h]
  · intro h
    have h1 : ¬ jsToLowerCase action = "shorten" := by
      rw [h]; decide
    simp [transformText, h1, h]
  · intro h1 h2
    simp [transformText, h1, h2]

theorem transformText_routing_witness :
    transformText "hi" "Make Funny" = "Make Funny the following text: \"hi\"" :=
  (transformText_routing "hi" "Make Funny").2.2 (by decide) (by decide)

/-- C7: `analyzeText` fails with a parse error exactly when the model's
returned text is malformed (the JSON parsing routine rejects it); any
successfully parsed JSON value — including an object missing the three
top-level fields, since the `as` cast validates nothing — is returned to
the caller unchanged with no error; a failed remote call surfaces as an
api error. -/
theorem analyzeText_parse_errors (jsonParse : String → Option Json) (txt : String) :
    (analyzeText jsonParse (.ok txt) = .error .parseError ↔
      jsonParse (jsTrim txt) = none) ∧
    (∀ j, jsonParse (jsTrim txt) = some j →
      analyzeText jsonParse (.ok txt) = .ok j) ∧
    analyzeText jsonParse (.error ()) = .error .apiError := by
  refine ⟨⟨?_, ?_⟩, ?_, rfl⟩
  · intro h
    cases hp : jsonParse (jsTrim txt) with
    | none => rfl
    | some j => simp [analyzeText, hp] at h
  · intro h
    simp [analyzeText, h]
  · intro j h
    simp [analyzeText, h]

theorem analyzeText_parse_errors_witness :
    analyzeText (fun s => if s = "{}" then some (Json.obj []) else none) (.ok " {} ")
      = .ok (Json.obj []) :=
  (analyzeText_parse_errors (fun s => if s = "{}" then some (Json.obj []) else none)
    " {} ").2.1 (Json.obj []) (by rfl)

/-- C8: tone-to-colour is a pure case-insensitive lookup over a fixed
vocabulary: with no analysis, or a tone name whose lower-casing is not a
key of the table, the neutral default is returned; a tone name whose
lower-casing is a key returns exactly its mapped colour ("Angry" ↦
"bg-red-600"). -/
theorem toneColorClass_pure_lookup (name : String) (score : Int)
    (sugs : List String) (gms : List GrammarMistake) (color : String) :
    toneColorClass none = "bg-gray-400 dark:bg-gray-600" ∧
    (toneColorMap.lookup (jsToLowerCase name) = some color →
      toneColorClass (some ⟨⟨name, score⟩, sugs, gms⟩) = color) ∧
    (toneColorMap.lookup (jsToLowerCase name) = none →
      toneColorClass (some ⟨⟨name, score⟩, sugs, gms⟩)
        = "bg-gray-400 dark:bg-gray-600") ∧
    toneColorClass (some ⟨⟨"Angry", score⟩, sugs, gms⟩) = "bg-red-600" := by
  refine ⟨rfl, ?_, ?_, rfl⟩
  · intro h
    have hne : jsToLowerCase name ≠ "" := by
      intro he
      rw [he] at h
      have h0 : toneColorMap.lookup ("" : String) = none := by decide
      rw [h0] at h
      exact Option.noConfusion h
    simp [toneColorClass, hne, h]
  · intro h
    by_cases he : jsToLowerCase name = ""
    · simp [toneColorClass, he, defaultToneColor]
    · simp [toneColorClass, he, h, defaultToneColor]

theorem toneColorClass_pure_lookup_witness :
    toneColorClass (some ⟨⟨"Angry", 80⟩, [], []⟩) = "bg-red-600" :=
  (toneColorClass_pure_lookup "Angry" 80 [] [] "bg-red-600").2.1 (by decide)

/-- C9: during a resize drag, a computed width percentage
(`clientX / innerWidth * 100`) outside the open interval (25, 75) leaves
the state — in particular the stored width — unchanged at its prior
value rather than clipped to the bound, while a value strictly inside
the interval is stored exactly. -/
theorem doResize_clamps (clientX innerWidth : ℚ) (s : AppState) :
    (¬ (25 < clientX / innerWidth * 100 ∧ clientX / innerWidth * 100 < 75) →
      doResize clientX innerWidth s = s) ∧
    (25 < clientX / innerWidth * 100 → clientX / innerWidth * 100 < 75 →
      (doResize clientX innerWidth s).editorWidthPercent
        = clientX / innerWidth * 100) := by
  constructor
  · intro h
    simp [doResize, h]
  · intro h1 h2
    simp [doResize, h1, h2]

theorem doResize_clamps_witness :
    (doResize 50 100 initState).editorWidthPercent = 50 / 100 * 100 :=
  (doResize_clamps 50 100 initState).2 (by norm_num) (by norm_num)

/-- C10: `runAnalysis` called with empty text is a complete no-op: it
returns at its first line without a network call and without modifying
`isLoading`, `error`, the stored analysis result, or anything else. -/
theorem runAnalysis_empty_text_noop (outcome : ApiOutcome) (s : AppState) :
    runAnalysis "" outcome s = s := by
  simp [runAnalysis]

end ZenWriter
